import Mathlib

/-!
# CEA-708 closed caption repacker (libavfilter/vf_ccrepack.c)

A shallow embedding of the `ccrepack` video filter.  The filter is a thin
wrapper: `config_input` allocates a caption FIFO for the frame rate of the
input link, `filter_frame` runs `ff_ccfifo_extract` and `ff_ccfifo_inject`
on every frame and forwards the frame, and `uninit` frees the FIFO.

The FIFO itself (`ccfifo.h`), `ff_filter_frame` and the `AVERROR` codes are
declared outside `vf_ccrepack.c`.  The wrapper is embedded over an arbitrary
environment `Env` providing them; a second environment, `spec_env`, follows
the written specification of the repacker.
-/

namespace CCRepack

/-! ## Data model -/

/-- Rational number of libavutil: numerator and denominator. -/
structure AVRational where
  num : Int
  den : Int
deriving DecidableEq, Repr

/-- Type tag of a caption byte pair. -/
inductive CCType where
  | ntsc
  | dtvcc_start
  | dtvcc_cont
  | padding
deriving DecidableEq, Repr

/-- Caption byte pair: two bytes, a validity flag and a type tag. -/
structure BytePair where
  valid : Bool
  cc_type : CCType
  b1 : Nat
  b2 : Nat
deriving DecidableEq, Repr

/-- Modelled from the spec: contents of a frame object; the type `AVFrame`
is declared outside `vf_ccrepack.c`.  Following section 6 of the
specification a frame exposes its caption byte-pair array (`none` when the
frame has no caption side data) and its nominal rate; `picture` stands for
everything else in the frame. -/
structure AVFrame where
  a53_cc : Option (List BytePair)
  nominal_rate : AVRational
  picture : Nat
deriving DecidableEq, Repr

/-- Private context of one filter instance.  `cc_fifo` is the owned
`AVCCFifo *`: `none` is the null pointer, `some s` a FIFO in state `s`. -/
structure CCRepackContext (F : Type) where
  cc_fifo : Option F
deriving DecidableEq, Repr

/-- Filter instance: its private context and its single output link
(the filter declares exactly one output pad). -/
structure AVFilterContext (F : Type) where
  priv : CCRepackContext F
  outputs : Fin 1 → Nat

/-- Link between two filters: `dst` names the destination filter instance. -/
structure AVFilterLink where
  dst : Nat
  frame_rate : AVRational
deriving DecidableEq, Repr

/-- All filter instances of the process, by instance number. -/
abbrev Graph (F : Type) := Nat → AVFilterContext F

/-- Replace the private context of instance `d`, leaving every other
instance as it is. -/
def Graph.set_priv {F : Type} (g : Graph F) (d : Nat) (c : CCRepackContext F) : Graph F :=
  fun i => if i = d then { g i with priv := c } else g i

/-! ## Environment of the wrapper -/

/-- Functions and constants the wrapper uses but does not define.
A FIFO handle is passed to `ff_ccfifo_extract` and `ff_ccfifo_inject` by
value, so the callee may change the FIFO it points to but not the handle
held by the caller; `ccfifo_extract` and `ccfifo_inject` give the effect on
the pointed-to FIFO and on the frame, `ccfifo_extract_null` and
`ccfifo_inject_null` the effect when the handle is null.  `R` is the type
of the value the two calls report. -/
structure Env (F R : Type) where
  ff_ccfifo_alloc : AVRational → Nat → Option F
  ccfifo_extract : F → AVFrame → F × AVFrame × R
  ccfifo_inject : F → AVFrame → F × AVFrame × R
  ccfifo_extract_null : AVFrame → AVFrame × R
  ccfifo_inject_null : AVFrame → AVFrame × R
  ff_ccfifo_freep : Option F → Option F
  ff_filter_frame : Nat → Nat → AVFrame → Int
  averror_enomem : Int

/-- External calls made by the wrapper, in the order they are made. -/
inductive Call (F R : Type) where
  | ccfifo_alloc (frame_rate : AVRational) (log_ctx : Nat) (ret : Option F)
  | av_log (log_ctx : Nat) (msg : String)
  | ccfifo_extract (ccf : Option F) (frame : Nat) (obj : AVFrame) (ret : R)
  | ccfifo_inject (ccf : Option F) (frame : Nat) (obj : AVFrame) (ret : R)
  | filter_frame_fwd (outlink : Nat) (frame : Nat) (obj : AVFrame) (ret : Int)
  | ccfifo_freep (ccf : Option F)
deriving DecidableEq, Repr

/-- Result of one wrapper call: the filter instances afterwards, the value
returned, and the external calls made. -/
structure Outcome (F R : Type) where
  graph : Graph F
  ret : Int
  calls : List (Call F R)

/-- Call of `ff_ccfifo_extract(ccf, frame)`: new handle contents, new frame
contents, reported value. -/
def ff_ccfifo_extract {F R : Type} (env : Env F R) (ccf : Option F) (obj : AVFrame) :
    Option F × AVFrame × R :=
  match ccf with
  | none => let r := env.ccfifo_extract_null obj; (none, r.1, r.2)
  | some s => let r := env.ccfifo_extract s obj; (some r.1, r.2.1, r.2.2)

/-- Call of `ff_ccfifo_inject(ccf, frame)`: new handle contents, new frame
contents, reported value. -/
def ff_ccfifo_inject {F R : Type} (env : Env F R) (ccf : Option F) (obj : AVFrame) :
    Option F × AVFrame × R :=
  match ccf with
  | none => let r := env.ccfifo_inject_null obj; (none, r.1, r.2)
  | some s => let r := env.ccfifo_inject s obj; (some r.1, r.2.1, r.2.2)

/-! ## The wrapper -/

/-- Embedding of `config_input`: allocate the FIFO with the frame rate of
the link and store the handle; on a null result log and return
`AVERROR(ENOMEM)`, otherwise return 0. -/
def config_input {F R : Type} (env : Env F R) (g : Graph F) (link : AVFilterLink) :
    Outcome F R :=
  let ctx := link.dst
  let fifo := env.ff_ccfifo_alloc link.frame_rate ctx
  let g1 := g.set_priv ctx { cc_fifo := fifo }
  match fifo with
  | none =>
    { graph := g1
      ret := env.averror_enomem
      calls := [Call.ccfifo_alloc link.frame_rate ctx fifo,
                Call.av_log ctx "Failure to setup CC FIFO queue\n"] }
  | some _ =>
    { graph := g1
      ret := 0
      calls := [Call.ccfifo_alloc link.frame_rate ctx fifo] }

/-- Embedding of `filter_frame`: extract, inject, then forward the frame to
`outputs[0]` and return what forwarding returns.  `frame` is the address of
the frame object and `obj` its contents on entry. -/
def filter_frame {F R : Type} (env : Env F R) (g : Graph F) (inlink : AVFilterLink)
    (frame : Nat) (obj : AVFrame) : Outcome F R :=
  let ctx := (g inlink.dst).priv
  let outlink := (g inlink.dst).outputs 0
  let e := ff_ccfifo_extract env ctx.cc_fifo obj
  let i := ff_ccfifo_inject env e.1 e.2.1
  let ret := env.ff_filter_frame outlink frame i.2.1
  { graph := g.set_priv inlink.dst { cc_fifo := i.1 }
    ret := ret
    calls := [Call.ccfifo_extract ctx.cc_fifo frame obj e.2.2,
              Call.ccfifo_inject e.1 frame e.2.1 i.2.2,
              Call.filter_frame_fwd outlink frame i.2.1 ret] }

/-- Embedding of `uninit` for filter instance `ctx`: free the FIFO through
`ff_ccfifo_freep(&s->cc_fifo)`.  The function returns nothing. -/
def uninit {F R : Type} (env : Env F R) (g : Graph F) (ctx : Nat) : Graph F :=
  let s := (g ctx).priv
  g.set_priv ctx { cc_fifo := env.ff_ccfifo_freep s.cc_fifo }

/-! ## The repacker as specified

`ccfifo.c` is not part of the embedded source; the definitions below follow
the written specification of the repacker (its sections 3, 4 and 7). -/

/-- Error kinds named by the specification. -/
inductive CCError where
  | AllocationFailure
  | InvalidState
  | MalformedPacket
deriving DecidableEq, Repr

/-- Modelled from the spec: the constants the specification leaves to the
captioning standard, missing with `ccfifo.c`.  `bandwidth_table` maps a
frame rate to the number of byte pairs one frame may carry, and
`packet_pairs` maps the first byte of a packet-start pair to the declared
length of the packet, counted in byte pairs. -/
structure CaptionStandard where
  bandwidth_table : AVRational → Nat
  packet_pairs : Nat → Nat

/-- Modelled from the spec: state of the FIFO object `AVCCFifo`, missing
with `ccfifo.c`.  The repack queue (oldest pair first), which is the only
state that changes, and the frame rate the session was started with. -/
structure AVCCFifo where
  queue : List BytePair
  framerate : AVRational
deriving DecidableEq, Repr

/-- Modelled from the spec: the padding pair appended on underrun (bytes
0x00 0x00, not valid, tagged as padding), missing with `ccfifo.c`. -/
def padding_pair : BytePair :=
  { valid := false, cc_type := CCType.padding, b1 := 0x00, b2 := 0x00 }

/-- Modelled from the spec: the pairs of a frame that extract appends, that
is its caption payload without the pairs tagged as padding; part of the
missing `ff_ccfifo_extract`. -/
def real_pairs (obj : AVFrame) : List BytePair :=
  (obj.a53_cc.getD []).filter (fun p => decide (p.cc_type ≠ CCType.padding))

/-- Modelled from the spec: the missing `ff_ccfifo_extract` on a live FIFO
(section 4.1).  Appends the non-padding pairs of the frame to the tail of
the queue in input order, never fails, leaves the frame as it is. -/
def spec_extract (s : AVCCFifo) (obj : AVFrame) : AVCCFifo × AVFrame × Option CCError :=
  ({ s with queue := s.queue ++ real_pairs obj }, obj, none)

/-- Modelled from the spec: number of pairs in the unit at the head of the
queue, part of the missing `ff_ccfifo_inject`.  A packet-start pair opens a
packet of its declared length (at least the start pair itself); any other
pair is a unit of its own; the empty queue has no unit. -/
def unit_len (std : CaptionStandard) : List BytePair → Nat
  | [] => 0
  | p :: _ =>
    if p.cc_type = CCType.dtvcc_start then max 1 (std.packet_pairs p.b1) else 1

/-- Modelled from the spec: how many pairs one inject call dequeues under
policy (A) of section 4.2, part of the missing `ff_ccfifo_inject`.  Whole
units are taken from the head while they fit in `room`; a packet that does
not fit, or whose declared length is not yet buffered, stops the dequeue and
stays in the queue.  Every unit uses at least one pair of `room`, so `fuel`
equal to `room` is never exhausted. -/
def dequeue_count (std : CaptionStandard) : Nat → Nat → List BytePair → Nat
  | 0, _, _ => 0
  | fuel + 1, room, q =>
    let u := unit_len std q
    if u = 0 ∨ room < u ∨ q.length < u then 0
    else u + dequeue_count std fuel (room - u) (q.drop u)

/-- Modelled from the spec: the missing `ff_ccfifo_inject` on a live FIFO
(section 4.2).  The frame rate requested by the call is the nominal rate of
the frame it is handed (section 6): the call looks up the limit for that
rate, dequeues up to that many pairs from the head of the queue, pads up to
the limit, and replaces the caption payload of the frame. -/
def spec_inject (std : CaptionStandard) (s : AVCCFifo) (obj : AVFrame) :
    AVCCFifo × AVFrame × Option CCError :=
  let limit := std.bandwidth_table obj.nominal_rate
  let k := dequeue_count std limit limit s.queue
  let out := s.queue.take k ++ List.replicate (limit - k) padding_pair
  ({ s with queue := s.queue.drop k }, { obj with a53_cc := some out }, none)

/-- Modelled from the spec: extract or inject handed the null handle of a
closed session (sections 4.4 and 7), missing with `ccfifo.c`.  The call
fails with `InvalidState` and leaves the frame as it is. -/
def spec_closed (obj : AVFrame) : AVFrame × Option CCError :=
  (obj, some CCError.InvalidState)

/-- Modelled from the spec: the missing `ff_ccfifo_alloc` (section 4.4).
Session start allocates the empty queue for the given frame rate, or fails
when the allocation cannot be satisfied (`mem_ok` false). -/
def spec_alloc (mem_ok : Bool) (framerate : AVRational) (_log_ctx : Nat) : Option AVCCFifo :=
  if mem_ok then some { queue := [], framerate := framerate } else none

/-- Modelled from the spec: the missing `ff_ccfifo_freep` (section 4.4).
Teardown releases the queue with whatever it still buffers and leaves the
null handle behind. -/
def spec_freep (_ccf : Option AVCCFifo) : Option AVCCFifo :=
  none

/-- Modelled from the spec: the environment in which the FIFO functions
missing with `ccfifo.c` behave as specified.  `fwd` is the downstream
`ff_filter_frame` and `enomem` the value of `AVERROR(ENOMEM)`. -/
def spec_env (std : CaptionStandard) (mem_ok : Bool) (enomem : Int)
    (fwd : Nat → Nat → AVFrame → Int) : Env AVCCFifo (Option CCError) :=
  { ff_ccfifo_alloc := spec_alloc mem_ok
    ccfifo_extract := spec_extract
    ccfifo_inject := spec_inject std
    ccfifo_extract_null := spec_closed
    ccfifo_inject_null := spec_closed
    ff_ccfifo_freep := spec_freep
    ff_filter_frame := fwd
    averror_enomem := enomem }

/-- Compare two frame rates with positive denominators: `a ≤ b`. -/
def rate_le (a b : AVRational) : Bool :=
  decide (a.num * b.den ≤ b.num * a.den)

/-- Modelled from the spec: a bandwidth table (section 4.3) keyed by the
standard broadcast rates, missing with `ccfifo.c`.  The specification fixes
the entry for 29.97 (20 pairs); the other entries divide the 600 pairs per
second of the caption channel by the rate.  A rate between two entries takes
the limit of the nearest lower entry; a rate below all entries, or without a
positive denominator, takes the limit of the lowest entry. -/
def cc_lookup_vals : List (AVRational × Nat) :=
  [ (⟨24000, 1001⟩, 25), (⟨24, 1⟩, 25), (⟨25, 1⟩, 24), (⟨30000, 1001⟩, 20),
    (⟨30, 1⟩, 20), (⟨50, 1⟩, 12), (⟨60000, 1001⟩, 10), (⟨60, 1⟩, 10) ]

/-- Modelled from the spec: lookup in `cc_lookup_vals` with the
nearest-lower rule of section 4.3, missing with `ccfifo.c`. -/
def cc_lookup (rate : AVRational) : Nat :=
  if rate.den ≤ 0 then 25
  else cc_lookup_vals.foldl (fun acc e => if rate_le e.1 rate then e.2 else acc) 25

/-- Modelled from the spec: declared length of a packet in byte pairs, read
from the low six bits of its first byte (zero stands for 64), missing with
`ccfifo.c`. -/
def dtvcc_packet_pairs (b1 : Nat) : Nat :=
  if b1 % 64 = 0 then 64 else b1 % 64

/-- Modelled from the spec: the captioning standard used for the concrete
evaluations below. -/
def cta708 : CaptionStandard :=
  { bandwidth_table := cc_lookup, packet_pairs := dtvcc_packet_pairs }

/-! ## Running a session -/

/-- Graph in which every filter instance is freshly created: the private
context is zeroed (null FIFO handle) and the output link of instance `i`
is link `i`. -/
def fresh_graph (F : Type) : Graph F :=
  fun i => { priv := { cc_fifo := none }, outputs := fun _ => i }

/-- Deliver the frames of `frames` (address and contents) one after the
other to `filter_frame` on `inlink`; the result is the graph afterwards and
the outcome of every call, oldest first. -/
def run_frames {F R : Type} (env : Env F R) (inlink : AVFilterLink) :
    Graph F → List (Nat × AVFrame) → Graph F × List (Outcome F R)
  | g, [] => (g, [])
  | g, fr :: rest =>
    let o := filter_frame env g inlink fr.1 fr.2
    let r := run_frames env inlink o.graph rest
    (r.1, o :: r.2)

/-- Frames forwarded downstream among the calls, oldest first: output
link, address of the frame object, and its contents when forwarded. -/
def forwarded {F R : Type} : List (Call F R) → List (Nat × Nat × AVFrame)
  | [] => []
  | Call.filter_frame_fwd outlink frame obj _ :: rest => (outlink, frame, obj) :: forwarded rest
  | _ :: rest => forwarded rest

/-- Frames forwarded downstream over a run of `filter_frame` calls. -/
def forwarded_all {F R : Type} : List (Outcome F R) → List (Nat × Nat × AVFrame)
  | [] => []
  | o :: rest => forwarded o.calls ++ forwarded_all rest

/-- One operation of the framework on a filter instance. -/
inductive Op where
  | config (frame_rate : AVRational)
  | frame (frame_rate : AVRational) (frame : Nat) (obj : AVFrame)
  | teardown
deriving DecidableEq, Repr

/-- Run one operation on filter instance `a`. -/
def apply_op {F R : Type} (env : Env F R) (g : Graph F) (a : Nat) : Op → Graph F
  | Op.config r => (config_input env g { dst := a, frame_rate := r }).graph
  | Op.frame r p obj => (filter_frame env g { dst := a, frame_rate := r } p obj).graph
  | Op.teardown => uninit env g a

/-- Run a sequence of operations on filter instance `a`. -/
def run_ops {F R : Type} (env : Env F R) (a : Nat) : Graph F → List Op → Graph F
  | g, [] => g
  | g, op :: rest => run_ops env a (apply_op env g a op) rest

/-- The same environment, with every value reported by extract and inject
replaced by its image under `f`. -/
def Env.map_reports {F R R2 : Type} (env : Env F R) (f : R → R2) : Env F R2 :=
  { ff_ccfifo_alloc := env.ff_ccfifo_alloc
    ccfifo_extract := fun s obj => let r := env.ccfifo_extract s obj; (r.1, r.2.1, f r.2.2)
    ccfifo_inject := fun s obj => let r := env.ccfifo_inject s obj; (r.1, r.2.1, f r.2.2)
    ccfifo_extract_null := fun obj => let r := env.ccfifo_extract_null obj; (r.1, f r.2)
    ccfifo_inject_null := fun obj => let r := env.ccfifo_inject_null obj; (r.1, f r.2)
    ff_ccfifo_freep := env.ff_ccfifo_freep
    ff_filter_frame := env.ff_filter_frame
    averror_enomem := env.averror_enomem }

/-! ## Inputs used for concrete evaluation -/

/-- Specified environment with the `cta708` constants, allocation
succeeding, `AVERROR(ENOMEM)` equal to -12 and a downstream filter that
accepts every frame. -/
def demo_env : Env AVCCFifo (Option CCError) :=
  spec_env cta708 true (-12) (fun _ _ _ => 0)

/-- Input link of filter instance 3 at 29.97 frames per second. -/
def demo_link : AVFilterLink :=
  { dst := 3, frame_rate := ⟨30000, 1001⟩ }

/-- Filter instance 3 after a successful `config_input` on `demo_link`. -/
def demo_graph : Graph AVCCFifo :=
  (config_input demo_env (fresh_graph AVCCFifo) demo_link).graph

/-- Frame at 29.97 frames per second carrying one NTSC pair, a complete
packet of two pairs and one padding pair. -/
def demo_frame : AVFrame :=
  { a53_cc := some [⟨true, CCType.ntsc, 0x80, 0x80⟩, ⟨true, CCType.dtvcc_start, 0x02, 0x21⟩,
                    ⟨true, CCType.dtvcc_cont, 0x41, 0x42⟩, padding_pair]
    nominal_rate := ⟨30000, 1001⟩
    picture := 1 }

/-- Frame at 29.97 frames per second without caption side data. -/
def demo_plain_frame : AVFrame :=
  { a53_cc := none, nominal_rate := ⟨30000, 1001⟩, picture := 2 }

/-- Frame at 59.94 frames per second carrying one NTSC pair. -/
def demo_fast_frame : AVFrame :=
  { a53_cc := some [⟨true, CCType.ntsc, 0x81, 0x82⟩]
    nominal_rate := ⟨60000, 1001⟩
    picture := 3 }

/-- Filter instance 3 after a successful `config_input` at 23.976 frames
per second. -/
def demo_graph24 : Graph AVCCFifo :=
  (config_input demo_env (fresh_graph AVCCFifo) ⟨3, ⟨24000, 1001⟩⟩).graph

/-- Three frames at 23.976 frames per second without caption data: no
payload, an empty payload, and a payload of one padding pair. -/
def demo_silent_frames : List (Nat × AVFrame) :=
  [(21, ⟨none, ⟨24000, 1001⟩, 1⟩), (22, ⟨some [], ⟨24000, 1001⟩, 2⟩),
   (23, ⟨some [padding_pair], ⟨24000, 1001⟩, 3⟩)]

/-- Frame at 29.97 frames per second carrying the first 5 pairs of a packet
that declares 6. -/
def dangling_frame : AVFrame :=
  { a53_cc := some [⟨true, CCType.dtvcc_start, 0x06, 0x21⟩, ⟨true, CCType.dtvcc_cont, 0x41, 0x42⟩,
                    ⟨true, CCType.dtvcc_cont, 0x43, 0x44⟩, ⟨true, CCType.dtvcc_cont, 0x45, 0x46⟩,
                    ⟨true, CCType.dtvcc_cont, 0x47, 0x48⟩]
    nominal_rate := ⟨30000, 1001⟩
    picture := 1 }

/-- Filter instance 3 after `dangling_frame` went through `demo_graph`: the
5 pairs of the unfinished packet are still buffered. -/
def demo_backlog_graph : Graph AVCCFifo :=
  (filter_frame demo_env demo_graph demo_link 7 dangling_frame).graph

/-- Filter instance 3 closed by `uninit` while 5 pairs were still
buffered. -/
def closed_graph : Graph AVCCFifo :=
  uninit demo_env demo_backlog_graph 3

/-! ## Helper lemmas -/

theorem set_priv_same {F : Type} (g : Graph F) (d : Nat) (c : CCRepackContext F) :
    (g.set_priv d c d).priv = c := by
  simp [Graph.set_priv]

theorem set_priv_outputs {F : Type} (g : Graph F) (d i : Nat) (c : CCRepackContext F) :
    (g.set_priv d c i).outputs = (g i).outputs := by
  unfold Graph.set_priv
  split <;> rfl

theorem set_priv_other {F : Type} (g : Graph F) (d i : Nat) (c : CCRepackContext F)
    (h : i ≠ d) : g.set_priv d c i = g i := by
  simp [Graph.set_priv, h]

theorem set_priv_self {F : Type} (g : Graph F) (d : Nat) (c : CCRepackContext F)
    (h : (g d).priv = c) : g.set_priv d c = g := by
  funext i
  unfold Graph.set_priv
  split
  · next hi => subst hi; subst h; rfl
  · rfl

theorem config_input_graph {F R : Type} (env : Env F R) (g : Graph F) (link : AVFilterLink) :
    (config_input env g link).graph =
      g.set_priv link.dst { cc_fifo := env.ff_ccfifo_alloc link.frame_rate link.dst } := by
  unfold config_input
  dsimp only
  split <;> rfl

theorem apply_op_other {F R : Type} (env : Env F R) (g : Graph F) (a b : Nat) (h : b ≠ a)
    (op : Op) : apply_op env g a op b = g b := by
  cases op with
  | config r => simp [apply_op, config_input_graph, set_priv_other _ _ _ _ h]
  | frame r p obj => simp [apply_op, filter_frame, set_priv_other _ _ _ _ h]
  | teardown => simp [apply_op, uninit, set_priv_other _ _ _ _ h]

theorem run_ops_other {F R : Type} (env : Env F R) (a b : Nat) (h : b ≠ a) (ops : List Op) :
    ∀ g : Graph F, run_ops env a g ops b = g b := by
  induction ops with
  | nil => intro g; rfl
  | cons op rest ih =>
    intro g
    simp only [run_ops]
    rw [ih, apply_op_other env g a b h]

theorem filter_frame_outputs {F R : Type} (env : Env F R) (g : Graph F) (inlink : AVFilterLink)
    (frame : Nat) (obj : AVFrame) (i : Nat) :
    ((filter_frame env g inlink frame obj).graph i).outputs = (g i).outputs := by
  simp [filter_frame, set_priv_outputs]

theorem filter_frame_active {F R : Type} (env : Env F R) (g : Graph F) (inlink : AVFilterLink)
    (frame : Nat) (obj : AVFrame) :
    (((filter_frame env g inlink frame obj).graph inlink.dst).priv.cc_fifo).isSome
      = ((g inlink.dst).priv.cc_fifo).isSome := by
  simp only [filter_frame, set_priv_same]
  cases (g inlink.dst).priv.cc_fifo <;> rfl

theorem filter_frame_forwarded {F R : Type} (env : Env F R) (g : Graph F)
    (inlink : AVFilterLink) (frame : Nat) (obj : AVFrame) :
    (forwarded (filter_frame env g inlink frame obj).calls).map (fun x => (x.1, x.2.1))
      = [((g inlink.dst).outputs 0, frame)] := by
  simp [filter_frame, forwarded]

theorem run_frames_forwarded {F R : Type} (env : Env F R) (inlink : AVFilterLink)
    (frames : List (Nat × AVFrame)) :
    ∀ g : Graph F,
      (forwarded_all (run_frames env inlink g frames).2).map (fun x => (x.1, x.2.1))
        = frames.map (fun fr => ((g inlink.dst).outputs 0, fr.1)) := by
  induction frames with
  | nil => intro g; rfl
  | cons fr rest ih =>
    intro g
    simp only [run_frames, forwarded_all, List.map_append, List.map_cons]
    rw [ih, filter_frame_forwarded, filter_frame_outputs]
    rfl

theorem run_frames_active {F R : Type} (env : Env F R) (inlink : AVFilterLink)
    (frames : List (Nat × AVFrame)) :
    ∀ g : Graph F,
      (((run_frames env inlink g frames).1 inlink.dst).priv.cc_fifo).isSome
        = ((g inlink.dst).priv.cc_fifo).isSome := by
  induction frames with
  | nil => intro g; rfl
  | cons fr rest ih =>
    intro g
    simp only [run_frames]
    rw [ih, filter_frame_active]

/-! ## The wrapper: ordering, results, frames -/

/-- C1: on an active session (FIFO state `s`) `filter_frame` calls extract on
`(s, obj)`, then inject on the FIFO and frame left by extract, then forwards
the frame left by inject; these are its only calls, in this order, and the
FIFO afterwards is the one left by inject. -/
theorem filter_frame_extract_then_inject {F R : Type} (env : Env F R) (g : Graph F)
    (inlink : AVFilterLink) (frame : Nat) (obj : AVFrame) (s : F)
    (h : (g inlink.dst).priv.cc_fifo = some s) :
    ((filter_frame env g inlink frame obj).graph inlink.dst).priv.cc_fifo
        = some (env.ccfifo_inject (env.ccfifo_extract s obj).1 (env.ccfifo_extract s obj).2.1).1
    ∧ (filter_frame env g inlink frame obj).calls =
        [ Call.ccfifo_extract (some s) frame obj (env.ccfifo_extract s obj).2.2,
          Call.ccfifo_inject (some (env.ccfifo_extract s obj).1) frame
            (env.ccfifo_extract s obj).2.1
            (env.ccfifo_inject (env.ccfifo_extract s obj).1 (env.ccfifo_extract s obj).2.1).2.2,
          Call.filter_frame_fwd ((g inlink.dst).outputs 0) frame
            (env.ccfifo_inject (env.ccfifo_extract s obj).1 (env.ccfifo_extract s obj).2.1).2.1
            (env.ff_filter_frame ((g inlink.dst).outputs 0) frame
              (env.ccfifo_inject (env.ccfifo_extract s obj).1
                (env.ccfifo_extract s obj).2.1).2.1) ] := by
  simp [filter_frame, h, ff_ccfifo_extract, ff_ccfifo_inject, set_priv_same]

/-- Witness for C1 on `demo_graph` with `demo_frame` at address 7. -/
theorem filter_frame_extract_then_inject_witness :
    (demo_graph demo_link.dst).priv.cc_fifo = some ⟨[], ⟨30000, 1001⟩⟩
    ∧ ((filter_frame demo_env demo_graph demo_link 7 demo_frame).graph demo_link.dst).priv.cc_fifo
        = some (demo_env.ccfifo_inject (demo_env.ccfifo_extract ⟨[], ⟨30000, 1001⟩⟩ demo_frame).1
            (demo_env.ccfifo_extract ⟨[], ⟨30000, 1001⟩⟩ demo_frame).2.1).1 :=
  ⟨by decide,
   (filter_frame_extract_then_inject demo_env demo_graph demo_link 7 demo_frame
      ⟨[], ⟨30000, 1001⟩⟩ (by decide)).1⟩

/-- C4: `config_input` returns `AVERROR(ENOMEM)` exactly when
`ff_ccfifo_alloc` returns no FIFO and 0 exactly when it returns one; the
context afterwards holds what `ff_ccfifo_alloc` returned for the frame rate
of the link, so it holds no FIFO after a failure. -/
theorem config_input_fails_iff_alloc_fails {F R : Type} (env : Env F R) (g : Graph F)
    (link : AVFilterLink) (henomem : env.averror_enomem ≠ 0) :
    ((config_input env g link).ret = env.averror_enomem
        ↔ env.ff_ccfifo_alloc link.frame_rate link.dst = none)
    ∧ ((config_input env g link).ret = 0
        ↔ env.ff_ccfifo_alloc link.frame_rate link.dst ≠ none)
    ∧ ((config_input env g link).graph link.dst).priv.cc_fifo
        = env.ff_ccfifo_alloc link.frame_rate link.dst
    ∧ ((config_input env g link).ret ≠ 0
        → ((config_input env g link).graph link.dst).priv.cc_fifo = none) := by
  have hg := config_input_graph env g link
  refine ⟨?_, ?_, ?_, ?_⟩
  · unfold config_input
    dsimp only
    split
    · next hnone => simp [hnone]
    · next v hsome => simp [hsome]; exact fun h0 => henomem h0.symm
  · unfold config_input
    dsimp only
    split
    · next hnone => simp [hnone, henomem]
    · next v hsome => simp [hsome]
  · rw [hg, set_priv_same]
  · rw [hg, set_priv_same]
    unfold config_input
    dsimp only
    split
    · next hnone => intro _; exact hnone
    · next v hsome => intro h0; exact absurd rfl h0

/-- Witness for C4: a failing allocation with `AVERROR(ENOMEM)` equal to -12. -/
theorem config_input_fails_iff_alloc_fails_witness :
    (spec_env cta708 false (-12) (fun _ _ _ => 0)).averror_enomem ≠ 0
    ∧ ((config_input (spec_env cta708 false (-12) (fun _ _ _ => 0))
          (fresh_graph AVCCFifo) demo_link).ret = -12
        ↔ spec_alloc false demo_link.frame_rate demo_link.dst = none) :=
  ⟨by decide,
   (config_input_fails_iff_alloc_fails (spec_env cta708 false (-12) (fun _ _ _ => 0))
      (fresh_graph AVCCFifo) demo_link (by decide)).1⟩

/-- C6: the value `filter_frame` returns is the value `ff_filter_frame`
returns for the frame left by inject, on every FIFO handle (null included)
and every frame; the frame is forwarded; and replacing the values reported
by extract and inject by any others changes neither the returned value, nor
the frame forwarded, nor the FIFO. -/
theorem filter_frame_returns_forward_result {F R : Type} (env : Env F R) (g : Graph F)
    (inlink : AVFilterLink) (frame : Nat) (obj : AVFrame) :
    (filter_frame env g inlink frame obj).ret
        = env.ff_filter_frame ((g inlink.dst).outputs 0) frame
            (ff_ccfifo_inject env (ff_ccfifo_extract env (g inlink.dst).priv.cc_fifo obj).1
              (ff_ccfifo_extract env (g inlink.dst).priv.cc_fifo obj).2.1).2.1
    ∧ forwarded (filter_frame env g inlink frame obj).calls
        = [((g inlink.dst).outputs 0, frame,
            (ff_ccfifo_inject env (ff_ccfifo_extract env (g inlink.dst).priv.cc_fifo obj).1
              (ff_ccfifo_extract env (g inlink.dst).priv.cc_fifo obj).2.1).2.1)]
    ∧ ∀ (R2 : Type) (f : R → R2),
        (filter_frame (env.map_reports f) g inlink frame obj).ret
            = (filter_frame env g inlink frame obj).ret
        ∧ forwarded (filter_frame (env.map_reports f) g inlink frame obj).calls
            = forwarded (filter_frame env g inlink frame obj).calls
        ∧ (filter_frame (env.map_reports f) g inlink frame obj).graph
            = (filter_frame env g inlink frame obj).graph := by
  refine ⟨rfl, rfl, ?_⟩
  intro R2 f
  cases hc : (g inlink.dst).priv.cc_fifo <;>
    simp [filter_frame, forwarded, ff_ccfifo_extract, ff_ccfifo_inject, Env.map_reports, hc]

/-- C10: on an active session every frame delivered to `filter_frame` is
forwarded exactly once, as the same frame object, to `outputs[0]`, and the
context still holds a FIFO afterwards; over any sequence of delivered frames
the frames forwarded are the frames delivered, in the order delivered. -/
theorem filter_frame_one_in_one_out {F R : Type} (env : Env F R) (g : Graph F)
    (inlink : AVFilterLink) (frame : Nat) (obj : AVFrame) (frames : List (Nat × AVFrame))
    (s : F) (h : (g inlink.dst).priv.cc_fifo = some s) :
    (forwarded (filter_frame env g inlink frame obj).calls).map (fun x => (x.1, x.2.1))
        = [((g inlink.dst).outputs 0, frame)]
    ∧ (((filter_frame env g inlink frame obj).graph inlink.dst).priv.cc_fifo).isSome = true
    ∧ (forwarded_all (run_frames env inlink g frames).2).map (fun x => (x.1, x.2.1))
        = frames.map (fun fr => ((g inlink.dst).outputs 0, fr.1))
    ∧ (((run_frames env inlink g frames).1 inlink.dst).priv.cc_fifo).isSome = true := by
  refine ⟨filter_frame_forwarded env g inlink frame obj, ?_,
    run_frames_forwarded env inlink frames g, ?_⟩
  · rw [filter_frame_active, h]; rfl
  · rw [run_frames_active, h]; rfl

/-- Witness for C10: three frames delivered to `demo_graph`. -/
theorem filter_frame_one_in_one_out_witness :
    (demo_graph demo_link.dst).priv.cc_fifo = some ⟨[], ⟨30000, 1001⟩⟩
    ∧ (forwarded_all (run_frames demo_env demo_link demo_graph
          [(11, demo_frame), (12, demo_plain_frame), (13, demo_frame)]).2).map (fun x => (x.1, x.2.1))
        = [(3, 11), (3, 12), (3, 13)] :=
  ⟨by decide,
   (filter_frame_one_in_one_out demo_env demo_graph demo_link 11 demo_frame
      [(11, demo_frame), (12, demo_plain_frame), (13, demo_frame)] ⟨[], ⟨30000, 1001⟩⟩ (by decide)).2.2.1⟩

/-! ## Independence of sessions -/

theorem filter_frame_local {F R : Type} (env : Env F R) (g1 g2 : Graph F)
    (inlink : AVFilterLink) (frame : Nat) (obj : AVFrame) (h : g1 inlink.dst = g2 inlink.dst) :
    (filter_frame env g1 inlink frame obj).ret = (filter_frame env g2 inlink frame obj).ret
    ∧ (filter_frame env g1 inlink frame obj).calls = (filter_frame env g2 inlink frame obj).calls
    ∧ (filter_frame env g1 inlink frame obj).graph inlink.dst
        = (filter_frame env g2 inlink frame obj).graph inlink.dst := by
  simp [filter_frame, Graph.set_priv, h]

theorem run_frames_local {F R : Type} (env : Env F R) (inlink : AVFilterLink)
    (frames : List (Nat × AVFrame)) :
    ∀ g1 g2 : Graph F, g1 inlink.dst = g2 inlink.dst →
      (run_frames env inlink g1 frames).2.map (fun o => (o.ret, o.calls))
          = (run_frames env inlink g2 frames).2.map (fun o => (o.ret, o.calls))
      ∧ (run_frames env inlink g1 frames).1 inlink.dst
          = (run_frames env inlink g2 frames).1 inlink.dst := by
  induction frames with
  | nil => intro g1 g2 h; exact ⟨rfl, h⟩
  | cons fr rest ih =>
    intro g1 g2 h
    have hl := filter_frame_local env g1 g2 inlink fr.1 fr.2 h
    have hr := ih _ _ hl.2.2
    simp only [run_frames, List.map_cons]
    exact ⟨by rw [hl.1, hl.2.1, hr.1], hr.2⟩

/-- C8: for two distinct filter instances `a` and `b`, any sequence of
`config_input`, `filter_frame` and `uninit` calls on `a` leaves the context
of `b` (FIFO handle and FIFO contents) unchanged, and what `b` returns,
calls and forwards for any sequence of frames, and the FIFO it ends with,
are the same whether or not the calls on `a` were made. -/
theorem sessions_independent {F R : Type} (env : Env F R) (g : Graph F) (a b : Nat)
    (hab : a ≠ b) (ops : List Op) (r : AVRational) (frames : List (Nat × AVFrame)) :
    run_ops env a g ops b = g b
    ∧ (run_frames env { dst := b, frame_rate := r } (run_ops env a g ops) frames).2.map
          (fun o => (o.ret, o.calls))
        = (run_frames env { dst := b, frame_rate := r } g frames).2.map
          (fun o => (o.ret, o.calls))
    ∧ (run_frames env { dst := b, frame_rate := r } (run_ops env a g ops) frames).1 b
        = (run_frames env { dst := b, frame_rate := r } g frames).1 b := by
  have hb : run_ops env a g ops b = g b := run_ops_other env a b (Ne.symm hab) ops g
  exact ⟨hb, run_frames_local env { dst := b, frame_rate := r } frames _ _ hb⟩

/-- Witness for C8: instance 5 is configured, fed a frame and torn down
while instance 3 holds `demo_graph`. -/
theorem sessions_independent_witness :
    (5 : Nat) ≠ 3
    ∧ run_ops demo_env 5 demo_graph
        [Op.config ⟨25, 1⟩, Op.frame ⟨25, 1⟩ 9 demo_frame, Op.teardown] 3 = demo_graph 3 :=
  ⟨by decide,
   (sessions_independent demo_env demo_graph 5 3 (by decide)
      [Op.config ⟨25, 1⟩, Op.frame ⟨25, 1⟩ 9 demo_frame, Op.teardown] ⟨30000, 1001⟩
      [(11, demo_frame)]).1⟩

/-! ## The specified repacker behind the wrapper -/

theorem unit_len_pos (std : CaptionStandard) (p : BytePair) (q : List BytePair) :
    1 ≤ unit_len std (p :: q) := by
  simp only [unit_len]
  split
  · exact Nat.le_max_left 1 _
  · exact Nat.le_refl 1

theorem dequeue_count_le (std : CaptionStandard) (fuel : Nat) :
    ∀ (room : Nat) (q : List BytePair),
      dequeue_count std fuel room q ≤ room ∧ dequeue_count std fuel room q ≤ q.length := by
  induction fuel with
  | zero => intro room q; simp [dequeue_count]
  | succ n ih =>
    intro room q
    unfold dequeue_count
    dsimp only
    split
    · simp
    · next hc =>
      have h := ih (room - unit_len std q) (q.drop (unit_len std q))
      rw [List.length_drop] at h
      omega

/-- Fuel equal to the room is never exhausted: any larger fuel gives the
same count. -/
theorem dequeue_count_fuel (std : CaptionStandard) (f1 : Nat) :
    ∀ (f2 room : Nat) (q : List BytePair), room ≤ f1 → room ≤ f2 →
      dequeue_count std f1 room q = dequeue_count std f2 room q := by
  induction f1 with
  | zero =>
    intro f2 room q h1 _
    have hr : room = 0 := by omega
    subst hr
    cases f2 with
    | zero => rfl
    | succ m =>
      cases q with
      | nil => simp [dequeue_count, unit_len]
      | cons p rest =>
        have := unit_len_pos std p rest
        simp only [dequeue_count]
        rw [if_pos (by omega)]
  | succ n ih =>
    intro f2 room q h1 h2
    cases f2 with
    | zero =>
      have hr : room = 0 := by omega
      subst hr
      cases q with
      | nil => simp [dequeue_count, unit_len]
      | cons p rest =>
        have := unit_len_pos std p rest
        simp only [dequeue_count]
        rw [if_pos (by omega)]
    | succ m =>
      cases q with
      | nil => simp [dequeue_count, unit_len]
      | cons p rest =>
        have hu := unit_len_pos std p rest
        simp only [dequeue_count]
        split
        · rfl
        · next hc =>
          rw [ih m (room - unit_len std (p :: rest)) _ (by omega) (by omega)]

theorem spec_inject_length (std : CaptionStandard) (s : AVCCFifo) (obj : AVFrame) :
    (spec_inject std s obj).2.1.a53_cc.map List.length
      = some (std.bandwidth_table obj.nominal_rate) := by
  have h := dequeue_count_le std (std.bandwidth_table obj.nominal_rate)
    (std.bandwidth_table obj.nominal_rate) s.queue
  simp only [spec_inject, Option.map_some', List.length_append, List.length_take,
    List.length_replicate]
  congr 1
  omega

theorem spec_inject_empty (std : CaptionStandard) (r : AVRational) (obj : AVFrame) :
    spec_inject std ⟨[], r⟩ obj
      = (⟨[], r⟩,
          { obj with
            a53_cc := some (List.replicate (std.bandwidth_table obj.nominal_rate) padding_pair) },
          none) := by
  have h := (dequeue_count_le std (std.bandwidth_table obj.nominal_rate)
    (std.bandwidth_table obj.nominal_rate) []).2
  have h0 : dequeue_count std (std.bandwidth_table obj.nominal_rate)
      (std.bandwidth_table obj.nominal_rate) [] = 0 := by
    simpa using h
  simp [spec_inject, h0]

theorem spec_filter_frame_active (std : CaptionStandard) (mem_ok : Bool) (enomem : Int)
    (fwd : Nat → Nat → AVFrame → Int) (g : Graph AVCCFifo) (inlink : AVFilterLink)
    (frame : Nat) (obj : AVFrame) (s : AVCCFifo) (h : (g inlink.dst).priv.cc_fifo = some s) :
    ((filter_frame (spec_env std mem_ok enomem fwd) g inlink frame obj).graph
        inlink.dst).priv.cc_fifo
      = some (spec_inject std (spec_extract s obj).1 obj).1
    ∧ forwarded (filter_frame (spec_env std mem_ok enomem fwd) g inlink frame obj).calls
      = [((g inlink.dst).outputs 0, frame, (spec_inject std (spec_extract s obj).1 obj).2.1)] := by
  simp [filter_frame, forwarded, h, ff_ccfifo_extract, ff_ccfifo_inject, set_priv_same,
    spec_env, spec_extract]

theorem spec_filter_frame_closed (std : CaptionStandard) (mem_ok : Bool) (enomem : Int)
    (fwd : Nat → Nat → AVFrame → Int) (g : Graph AVCCFifo) (inlink : AVFilterLink)
    (frame : Nat) (obj : AVFrame) (h : (g inlink.dst).priv.cc_fifo = none) :
    (filter_frame (spec_env std mem_ok enomem fwd) g inlink frame obj).calls
      = [ Call.ccfifo_extract none frame obj (some CCError.InvalidState),
          Call.ccfifo_inject none frame obj (some CCError.InvalidState),
          Call.filter_frame_fwd ((g inlink.dst).outputs 0) frame obj
            (fwd ((g inlink.dst).outputs 0) frame obj) ]
    ∧ (filter_frame (spec_env std mem_ok enomem fwd) g inlink frame obj).ret
      = fwd ((g inlink.dst).outputs 0) frame obj
    ∧ ((filter_frame (spec_env std mem_ok enomem fwd) g inlink frame obj).graph
        inlink.dst).priv.cc_fifo = none := by
  simp [filter_frame, h, ff_ccfifo_extract, ff_ccfifo_inject, set_priv_same, spec_env,
    spec_closed]

theorem uninit_spec_closed (std : CaptionStandard) (mem_ok : Bool) (enomem : Int)
    (fwd : Nat → Nat → AVFrame → Int) (g : Graph AVCCFifo) (ctx : Nat) :
    (uninit (spec_env std mem_ok enomem fwd) g ctx ctx).priv.cc_fifo = none := by
  simp [uninit, set_priv_same, spec_env, spec_freep]

theorem uninit_spec_noop (std : CaptionStandard) (mem_ok : Bool) (enomem : Int)
    (fwd : Nat → Nat → AVFrame → Int) (g : Graph AVCCFifo) (ctx : Nat)
    (h : (g ctx).priv.cc_fifo = none) :
    uninit (spec_env std mem_ok enomem fwd) g ctx = g := by
  unfold uninit
  apply set_priv_self
  cases hp : (g ctx).priv with
  | mk c => rw [hp] at h; simp only at h; subst h; rfl

theorem run_frames_padding (std : CaptionStandard) (mem_ok : Bool) (enomem : Int)
    (fwd : Nat → Nat → AVFrame → Int) (inlink : AVFilterLink) (r : AVRational)
    (frames : List (Nat × AVFrame)) :
    ∀ g : Graph AVCCFifo, (g inlink.dst).priv.cc_fifo = some ⟨[], r⟩ →
      (∀ fr ∈ frames, real_pairs fr.2 = []) →
      ((run_frames (spec_env std mem_ok enomem fwd) inlink g frames).1
          inlink.dst).priv.cc_fifo = some ⟨[], r⟩
      ∧ (∀ o ∈ (run_frames (spec_env std mem_ok enomem fwd) inlink g frames).2,
          (o.graph inlink.dst).priv.cc_fifo = some ⟨[], r⟩)
      ∧ forwarded_all (run_frames (spec_env std mem_ok enomem fwd) inlink g frames).2
          = frames.map (fun fr => ((g inlink.dst).outputs 0, fr.1,
              { fr.2 with
                a53_cc :=
                  some (List.replicate (std.bandwidth_table fr.2.nominal_rate) padding_pair) }))
      := by
  induction frames with
  | nil => intro g h _; exact ⟨h, by simp [run_frames], rfl⟩
  | cons fr rest ih =>
    intro g h hall
    have hfr : real_pairs fr.2 = [] := hall fr (List.mem_cons_self _ _)
    have hrest : ∀ x ∈ rest, real_pairs x.2 = [] :=
      fun x hx => hall x (List.mem_cons_of_mem _ hx)
    have hstep := spec_filter_frame_active std mem_ok enomem fwd g inlink fr.1 fr.2 ⟨[], r⟩ h
    have hex : (spec_extract ⟨[], r⟩ fr.2).1 = ⟨[], r⟩ := by simp [spec_extract, hfr]
    rw [hex, spec_inject_empty] at hstep
    have hi := ih _ hstep.1 hrest
    simp only [run_frames, forwarded_all, List.map_cons, List.mem_cons]
    refine ⟨hi.1, ?_, ?_⟩
    · intro o ho
      rcases ho with ho | ho
      · rw [ho]; exact hstep.1
      · exact hi.2.1 o ho
    · rw [hstep.2, hi.2.2, filter_frame_outputs]
      rfl

theorem run_frames_rates (std : CaptionStandard) (mem_ok : Bool) (enomem : Int)
    (fwd : Nat → Nat → AVFrame → Int) (inlink : AVFilterLink)
    (frames : List (Nat × AVFrame)) :
    ∀ (g : Graph AVCCFifo) (s : AVCCFifo), (g inlink.dst).priv.cc_fifo = some s →
      (forwarded_all (run_frames (spec_env std mem_ok enomem fwd) inlink g frames).2).map
          (fun x => (x.2.1, x.2.2.nominal_rate, x.2.2.a53_cc.map List.length))
        = frames.map (fun fr =>
            (fr.1, fr.2.nominal_rate, some (std.bandwidth_table fr.2.nominal_rate))) := by
  induction frames with
  | nil => intro g s _; rfl
  | cons fr rest ih =>
    intro g s h
    have hstep := spec_filter_frame_active std mem_ok enomem fwd g inlink fr.1 fr.2 s h
    simp only [run_frames, forwarded_all, List.map_append, List.map_cons]
    rw [hstep.2, ih _ _ hstep.1]
    simp only [List.map_cons, List.map_nil, List.singleton_append]
    rw [spec_inject_length]
    rfl

theorem run_frames_closed (std : CaptionStandard) (mem_ok : Bool) (enomem : Int)
    (fwd : Nat → Nat → AVFrame → Int) (inlink : AVFilterLink)
    (frames : List (Nat × AVFrame)) :
    ∀ g : Graph AVCCFifo, (g inlink.dst).priv.cc_fifo = none →
      ((run_frames (spec_env std mem_ok enomem fwd) inlink g frames).1
          inlink.dst).priv.cc_fifo = none
      ∧ forwarded_all (run_frames (spec_env std mem_ok enomem fwd) inlink g frames).2
          = frames.map (fun fr => ((g inlink.dst).outputs 0, fr.1, fr.2)) := by
  induction frames with
  | nil => intro g h; exact ⟨h, rfl⟩
  | cons fr rest ih =>
    intro g h
    have hstep := spec_filter_frame_closed std mem_ok enomem fwd g inlink fr.1 fr.2 h
    have hi := ih _ hstep.2.2
    simp only [run_frames, forwarded_all, List.map_cons]
    refine ⟨hi.1, ?_⟩
    rw [hstep.1, hi.2, filter_frame_outputs]
    rfl

/-- C2: under the specified repacker, for every active session (whatever
its queue holds) and every frame, the caption array attached to the frame
that `filter_frame` forwards has exactly as many pairs as the bandwidth
table allows for the frame rate requested by the inject call, which is the
nominal rate of the frame handed to it.  In particular, in a session started
by `config_input` on a link, every frame that comes at the frame rate of
that link leaves with the limit of the rate given to `ff_ccfifo_alloc`. -/
theorem inject_length_is_limit (std : CaptionStandard) (mem_ok : Bool) (enomem : Int)
    (fwd : Nat → Nat → AVFrame → Int) (g g0 : Graph AVCCFifo) (inlink : AVFilterLink)
    (frame : Nat) (obj : AVFrame) (frames : List (Nat × AVFrame)) (s : AVCCFifo)
    (h : (g inlink.dst).priv.cc_fifo = some s) :
    (forwarded (filter_frame (spec_env std mem_ok enomem fwd) g inlink frame obj).calls).map
        (fun x => (x.2.2.nominal_rate, x.2.2.a53_cc.map List.length))
      = [(obj.nominal_rate, some (std.bandwidth_table obj.nominal_rate))]
    ∧ ((∀ fr ∈ frames, fr.2.nominal_rate = inlink.frame_rate) →
        (config_input (spec_env std true enomem fwd) g0 inlink).calls
            = [Call.ccfifo_alloc inlink.frame_rate inlink.dst (some ⟨[], inlink.frame_rate⟩)]
        ∧ (forwarded_all (run_frames (spec_env std true enomem fwd) inlink
              (config_input (spec_env std true enomem fwd) g0 inlink).graph frames).2).map
              (fun x => x.2.2.a53_cc.map List.length)
            = frames.map (fun _ => some (std.bandwidth_table inlink.frame_rate))) := by
  constructor
  · rw [(spec_filter_frame_active std mem_ok enomem fwd g inlink frame obj s h).2]
    simp only [List.map_cons, List.map_nil]
    rw [spec_inject_length]
    rfl
  · intro hrate
    have hcfg : ((config_input (spec_env std true enomem fwd) g0 inlink).graph
        inlink.dst).priv.cc_fifo = some ⟨[], inlink.frame_rate⟩ := by
      rw [config_input_graph, set_priv_same]
      rfl
    have hr := run_frames_rates std true enomem fwd inlink frames _ _ hcfg
    have hr2 := congrArg (List.map (fun t : Nat × AVRational × Option Nat => t.2.2)) hr
    simp only [List.map_map, Function.comp] at hr2
    refine ⟨by simp [config_input, spec_env, spec_alloc], ?_⟩
    refine Eq.trans hr2 ?_
    apply List.map_congr_left
    intro fr hfr
    simp only [Function.comp, hrate fr hfr]

/-- Witness for C2: `demo_fast_frame`, at 59.94 frames per second, leaves a
session that still buffers 5 pairs with 10 pairs. -/
theorem inject_length_is_limit_witness :
    (demo_backlog_graph demo_link.dst).priv.cc_fifo.map (fun s => s.queue.length) = some 5
    ∧ (forwarded (filter_frame demo_env demo_backlog_graph demo_link 7 demo_fast_frame).calls).map
        (fun x => (x.2.2.nominal_rate, x.2.2.a53_cc.map List.length))
      = [(⟨60000, 1001⟩, some 10)] :=
  ⟨by decide,
   (inject_length_is_limit cta708 true (-12) (fun _ _ _ => 0) demo_backlog_graph
     (fresh_graph AVCCFifo) demo_link 7 demo_fast_frame [(11, demo_frame)]
     ⟨dangling_frame.a53_cc.getD [], ⟨30000, 1001⟩⟩ (by decide)).1⟩

/-- C7: under the specified repacker, starting from an empty queue, any
number of consecutive frames without caption data all leave `filter_frame`
with the caption array made of exactly limit-many padding pairs, the limit
being the one for the rate of the frame, and nothing else changed, and the
FIFO is unchanged (its queue empty) after each call and at the end. -/
theorem padding_idempotent (std : CaptionStandard) (mem_ok : Bool) (enomem : Int)
    (fwd : Nat → Nat → AVFrame → Int) (g : Graph AVCCFifo) (inlink : AVFilterLink)
    (r : AVRational) (frames : List (Nat × AVFrame))
    (hempty : (g inlink.dst).priv.cc_fifo = some ⟨[], r⟩)
    (hnone : ∀ fr ∈ frames, real_pairs fr.2 = []) :
    ((run_frames (spec_env std mem_ok enomem fwd) inlink g frames).1
        inlink.dst).priv.cc_fifo = some ⟨[], r⟩
    ∧ (∀ o ∈ (run_frames (spec_env std mem_ok enomem fwd) inlink g frames).2,
        (o.graph inlink.dst).priv.cc_fifo = some ⟨[], r⟩)
    ∧ forwarded_all (run_frames (spec_env std mem_ok enomem fwd) inlink g frames).2
        = frames.map (fun fr => ((g inlink.dst).outputs 0, fr.1,
            { fr.2 with
              a53_cc :=
                some (List.replicate (std.bandwidth_table fr.2.nominal_rate) padding_pair) })) :=
  run_frames_padding std mem_ok enomem fwd inlink r frames g hempty hnone

/-- Witness for C7: three frames without caption data at 23.976 frames per
second. -/
theorem padding_idempotent_witness :
    (demo_graph24 3).priv.cc_fifo = some ⟨[], ⟨24000, 1001⟩⟩
    ∧ (∀ fr ∈ demo_silent_frames, real_pairs fr.2 = [])
    ∧ forwarded_all (run_frames demo_env ⟨3, ⟨24000, 1001⟩⟩ demo_graph24 demo_silent_frames).2
        = demo_silent_frames.map (fun fr => ((demo_graph24 3).outputs 0, fr.1,
            { fr.2 with a53_cc := some (List.replicate 25 padding_pair) })) :=
  ⟨by decide, by decide,
   (padding_idempotent cta708 true (-12) (fun _ _ _ => 0) demo_graph24 ⟨3, ⟨24000, 1001⟩⟩
      ⟨24000, 1001⟩ demo_silent_frames (by decide) (by decide)).2.2⟩

/-- C3, the claim as stated fails: a session is closed with 5 real pairs
still buffered, and `config_input` on the closed session returns 0 and
leaves it with a new, empty FIFO: there is a transition from Closed back to
Active. -/
theorem closed_session_reopened :
    (demo_backlog_graph 3).priv.cc_fifo.map (fun s => s.queue.length) = some 5
    ∧ (closed_graph 3).priv.cc_fifo = none
    ∧ (config_input demo_env closed_graph demo_link).ret = 0
    ∧ ((config_input demo_env closed_graph demo_link).graph 3).priv.cc_fifo
        = some ⟨[], ⟨30000, 1001⟩⟩ := by
  decide

/-- C3 as amended: after `uninit` the context holds no FIFO handle; the
extract and inject calls that a later `filter_frame` makes fail with
`InvalidState`, and every frame is forwarded as it came, with no buffered
pair attached; `filter_frame` and `uninit` never give the context a FIFO
again.  Only `config_input` does, in every environment: it stores what
`ff_ccfifo_alloc` returns, which under the specified repacker is a new FIFO
with an empty queue. -/
theorem closed_session_reopened_only_by_config (std : CaptionStandard) (mem_ok : Bool)
    (enomem : Int) (fwd : Nat → Nat → AVFrame → Int) (g : Graph AVCCFifo) (c : Nat)
    (r : AVRational) (frame : Nat) (obj : AVFrame) (frames : List (Nat × AVFrame)) :
    (uninit (spec_env std mem_ok enomem fwd) g c c).priv.cc_fifo = none
    ∧ (filter_frame (spec_env std mem_ok enomem fwd)
          (uninit (spec_env std mem_ok enomem fwd) g c) ⟨c, r⟩ frame obj).calls
        = [ Call.ccfifo_extract none frame obj (some CCError.InvalidState),
            Call.ccfifo_inject none frame obj (some CCError.InvalidState),
            Call.filter_frame_fwd ((g c).outputs 0) frame obj (fwd ((g c).outputs 0) frame obj) ]
    ∧ forwarded_all (run_frames (spec_env std mem_ok enomem fwd) ⟨c, r⟩
          (uninit (spec_env std mem_ok enomem fwd) g c) frames).2
        = frames.map (fun fr => ((g c).outputs 0, fr.1, fr.2))
    ∧ ((run_frames (spec_env std mem_ok enomem fwd) ⟨c, r⟩
          (uninit (spec_env std mem_ok enomem fwd) g c) frames).1 c).priv.cc_fifo = none
    ∧ (uninit (spec_env std mem_ok enomem fwd)
          (run_frames (spec_env std mem_ok enomem fwd) ⟨c, r⟩
            (uninit (spec_env std mem_ok enomem fwd) g c) frames).1 c c).priv.cc_fifo = none
    ∧ (∀ (F R : Type) (env : Env F R) (g2 : Graph F),
        ((config_input env (uninit env g2 c) ⟨c, r⟩).graph c).priv.cc_fifo
          = env.ff_ccfifo_alloc r c)
    ∧ ((config_input (spec_env std true enomem fwd)
          (uninit (spec_env std true enomem fwd) g c) ⟨c, r⟩).graph c).priv.cc_fifo
        = some ⟨[], r⟩ := by
  have hclosed := uninit_spec_closed std mem_ok enomem fwd g c
  have hout : (uninit (spec_env std mem_ok enomem fwd) g c c).outputs = (g c).outputs := by
    simp [uninit, set_priv_outputs]
  have hff := spec_filter_frame_closed std mem_ok enomem fwd
    (uninit (spec_env std mem_ok enomem fwd) g c) ⟨c, r⟩ frame obj hclosed
  have hrun := run_frames_closed std mem_ok enomem fwd ⟨c, r⟩ frames
    (uninit (spec_env std mem_ok enomem fwd) g c) hclosed
  simp only [hout] at hff hrun
  refine ⟨hclosed, hff.1, hrun.2, hrun.1, uninit_spec_closed std mem_ok enomem fwd _ c, ?_, ?_⟩
  · intro F R env g2
    rw [config_input_graph, set_priv_same]
  · rw [config_input_graph, set_priv_same]
    rfl

/-- C9: under the specified `ff_ccfifo_freep`, after `uninit` the context
holds no FIFO handle (the queue and whatever it buffered are gone); `uninit`
returns nothing; a second `uninit` changes nothing, and neither does
`uninit` on a context that was never configured or whose `config_input`
failed. -/
theorem uninit_releases_queue (std : CaptionStandard) (mem_ok : Bool) (enomem : Int)
    (fwd : Nat → Nat → AVFrame → Int) (g : Graph AVCCFifo) (c : Nat) (r : AVRational) :
    (uninit (spec_env std mem_ok enomem fwd) g c c).priv.cc_fifo = none
    ∧ uninit (spec_env std mem_ok enomem fwd) (uninit (spec_env std mem_ok enomem fwd) g c) c
        = uninit (spec_env std mem_ok enomem fwd) g c
    ∧ uninit (spec_env std mem_ok enomem fwd) (fresh_graph AVCCFifo) c = fresh_graph AVCCFifo
    ∧ uninit (spec_env std mem_ok enomem fwd)
          (config_input (spec_env std false enomem fwd) g ⟨c, r⟩).graph c
        = (config_input (spec_env std false enomem fwd) g ⟨c, r⟩).graph := by
  refine ⟨uninit_spec_closed std mem_ok enomem fwd g c, ?_, ?_, ?_⟩
  · exact uninit_spec_noop std mem_ok enomem fwd _ c (uninit_spec_closed std mem_ok enomem fwd g c)
  · exact uninit_spec_noop std mem_ok enomem fwd _ c rfl
  · apply uninit_spec_noop
    rw [config_input_graph]
    simp [set_priv_same, spec_env, spec_alloc]

end CCRepack
